import Mathlib

/-!
Verification development for the gvm-libs excerpt consisting of
src/misc/store.c (the plugin/NVT description cache) and
src/boreas/alivedetection.h (the alive-detection engine's header contracts).

The cache functions of store.c are embedded directly from the C source.
The alive-detection engine itself (handle_reply, the sender scheduler and
the scan-restriction counters) ships only its header in this excerpt, so
those operations are modelled from the specification (sections 4.3, 4.5
and 6 of spec.md); each such definition is marked in its doc comment.
-/

/-! ## Part 1: the plugin cache of src/misc/store.c -/

/-- Embeds arg_get_value on an arglist, represented as an association list
keyed by strings.  Returns the value of the first entry with the given key,
or none when no entry with that key exists. -/
def arg_get_value {α : Type} (prefs : List (String × α)) (k : String) : Option α :=
  match prefs with
  | [] => none
  | (k1, v) :: rest => if k1 = k then some v else arg_get_value rest k

/-- Embeds arg_add_value: appends a new entry to the arglist. -/
def arg_add_value {α : Type} (prefs : List (String × α)) (k : String) (v : α) :
    List (String × α) :=
  prefs ++ [(k, v)]

/-- Embeds the loop of _add_plugin_preference (store.c lines 84-90) that
terminates the copied name before its trailing spaces.  The C loop reads
cname with index len-1 without a lower bound, so an empty or all-space name
underruns the buffer in C; the model totalises that case to the empty
string. -/
def rstrip_spaces (s : String) : String :=
  String.mk ((s.toList.reverse.dropWhile (fun c => c = ' ')).reverse)

/-- Embeds _add_plugin_preference (store.c lines 75-107): composes the key
"p_name[type]:cname" from the plugin name, the preference type and the
space-stripped preference name, and adds the default value under that key
only when arg_get_value finds no existing entry for it.  The C guard for a
NULL prefs or p_name pointer has no counterpart here because the model's
lists and strings are always present. -/
def add_plugin_preference (prefs : List (String × String))
    (p_name name ty defaul : String) : List (String × String) :=
  let cname := rstrip_spaces name
  let pref := p_name ++ "[" ++ ty ++ "]:" ++ cname
  match arg_get_value prefs pref with
  | some _ => prefs
  | none => arg_add_value prefs pref defaul

/-- Embeds nvtpref_t: one preference record of an NVT, with the fields read
by store_load_plugin (nvtpref_name, nvtpref_type, nvtpref_default). -/
structure nvtpref_t where
  name : String
  ty : String
  defaul : String
  deriving DecidableEq

/-- Embeds the part of nvti_t that store.c reads: the script name
(nvti_name) and its preference list (nvti_pref_len / nvti_pref). -/
structure nvti_t where
  name : String
  prefs : List nvtpref_t
  deriving DecidableEq

/-- Embeds nvti_new: a freshly created, empty metadata record. -/
def nvti_new : nvti_t :=
  { name := "", prefs := [] }

/-- Embeds nvticache_t as read by store.c: the cache directory path and the
plugin source directory path given to nvticache_new. -/
structure nvticache_t where
  cache_path : String
  src_path : String
  deriving DecidableEq

/-- Embeds store_init (store.c lines 127-149).  The filesystem stat call is
abstracted by the predicate dirExists, and nvticache_new (whose code is not
part of this excerpt) by the oracle newCache.  The global nvti_cache handle
is passed in as cache0 and returned updated: the C function leaves it
untouched on the -3 and -2 paths, assigns it the nvticache_new result before
testing it, and so clears it on the -1 path.  The dir argument is an Option
so that the C NULL check is representable; src is likewise an Option and is
never examined by store_init itself. -/
def store_init (dirExists : String → Bool)
    (newCache : String → Option String → Option nvticache_t)
    (cache0 : Option nvticache_t)
    (dir : Option String) (src : Option String) : Int × Option nvticache_t :=
  match dir with
  | none => (-3, cache0)
  | some d =>
    if dirExists d then
      match newCache d src with
      | some c => (0, some c)
      | none => (-1, none)
    else
      (-2, cache0)

/-- Modelled from the spec: nvticache_get, the staleness check behind
store_load_plugin, is not part of this excerpt (only its caller in store.c
is).  Section 6 of the spec gives the policy: an entry is invalid when the
source file or its signature file is newer than the cache entry, or when
the source file's timestamp is in the future.  The cache entry for the
requested file is represented as an optional pair of its modification time
and the parsed metadata; src_mtime and sig_mtime are the modification times
of the script file and its signature file, and now is the current time. -/
def nvticache_get (entry : Option (Nat × nvti_t))
    (src_mtime sig_mtime now : Nat) : Option nvti_t :=
  match entry with
  | none => none
  | some (cache_mtime, n) =>
    if cache_mtime < src_mtime ∨ cache_mtime < sig_mtime ∨ now < src_mtime then
      none
    else
      some n

/-- Embeds store_load_plugin (store.c lines 174-197): asks nvticache_get for
the cached metadata, returns not-found (none) when the cache misses, and
otherwise returns the metadata together with the preference arglist after
merging every NVT preference into it through add_plugin_preference.  The C
function returns an arglist holding the NVTI pointer and the prefs pointer;
the model returns the pair of the metadata and the updated prefs list. -/
def store_load_plugin (entry : Option (Nat × nvti_t))
    (src_mtime sig_mtime now : Nat) (prefs : List (String × String)) :
    Option (nvti_t × List (String × String)) :=
  match nvticache_get entry src_mtime sig_mtime now with
  | none => none
  | some n =>
    some (n, n.prefs.foldl
      (fun ps np => add_plugin_preference ps n.name np.name np.ty np.defaul)
      prefs)

/-- Embeds store_plugin (store.c lines 208-242): builds the cache file path
by joining the cache directory with the plugin file name (g_build_filename,
modelled as joining with a slash) and appending ".nvti", takes the plugin
arglist's "NVTI" value or a freshly created empty record when the arglist
has none, and writes that record to the path.  The write itself
(nvti_to_keyfile) is the returned pair: destination path and record
written.  The C NULL checks on the built strings cannot fire in the model
because string construction is total. -/
def store_plugin (cache : nvticache_t) (plugin : List (String × nvti_t))
    (file : String) : String × nvti_t :=
  let dummy := cache.cache_path ++ "/" ++ file
  let desc_file := dummy ++ ".nvti"
  let n := match arg_get_value plugin "NVTI" with
           | some m => m
           | none => nvti_new
  (desc_file, n)

/-! ## Part 2: the alive-detection engine of src/boreas -/

/-- Embeds the BURST macro (alivedetection.h line 30): to how many hosts
packets are sent at a time; a value of at most 0 disables rate limiting. -/
def BURST : Int := 100

/-- Embeds the BURST_TIMEOUT macro (alivedetection.h line 32): how long to
wait until a new burst of packets is sent. -/
def BURST_TIMEOUT : Nat := 100000

/-- Embeds the WAIT_FOR_REPLIES_TIMEOUT macro (alivedetection.h line 34):
how long, in seconds, to wait for replies after the last packet was sent. -/
def WAIT_FOR_REPLIES_TIMEOUT : Nat := 5

/-- Embeds the FILTER_PORT macro (alivedetection.h line 36): source port of
outgoing TCP pings, used for filtering incoming packets. -/
def FILTER_PORT : Nat := 9910

/-- Modelled from the spec: the sleep consuming BURST_TIMEOUT lives in the
sender scheduler, which is not part of this excerpt.  Per section 6 of the
spec the inter-burst delay defaults to 100 ms, so the scheduler passes
BURST_TIMEOUT to a microsecond sleep; this is the delay in milliseconds.
The header comment's unit annotation at line 31 disagrees with the spec on
the unit. -/
def burst_timeout_msec : Nat := BURST_TIMEOUT / 1000

/-- Modelled from the spec: the run state shared between the sender
scheduler and the capture listener.  The first three fields embed struct
hosts_data (alivedetection.h lines 78-90): the alive-observed set, the
target set and the alive-but-capped set, all keyed by address (addresses
are numbers in the model).  The emitted list records the addresses
published to the results queue, and the last two fields embed the
scan-restriction counters read by get_alive_hosts_count and
get_max_scan_hosts. -/
structure RunState where
  alivehosts : List Nat
  targethosts : List Nat
  alivehosts_not_to_be_sent_to_openvas : List Nat
  emitted : List Nat
  alive_hosts_count : Nat
  max_scan_hosts : Nat
  deriving DecidableEq

/-- Embeds the get_alive_hosts_count accessor (alivedetection.h line 127)
over the modelled run state. -/
def get_alive_hosts_count (s : RunState) : Nat :=
  s.alive_hosts_count

/-- Embeds the get_max_scan_hosts accessor (alivedetection.h line 129) over
the modelled run state. -/
def get_max_scan_hosts (s : RunState) : Nat :=
  s.max_scan_hosts

/-- Embeds the max_scan_hosts_reached accessor (alivedetection.h line 125)
over the modelled run state: whether the emitted-alive count has reached
the configured maximum. -/
def max_scan_hosts_reached (s : RunState) : Bool :=
  decide (s.max_scan_hosts ≤ s.alive_hosts_count)

/-- Modelled from the spec: the Host State Store update rule of section 4.5,
applied when the capture listener classifies a reply to address a.  The
code implementing it (alivedetection.c) is not part of this excerpt.  A
duplicate reply (address already alive-observed) is a no-op; a first reply
records the address as alive-observed and, when the address is a target,
either emits it and increments the emitted-alive count (below the cap) or
files it in the alive-but-capped set (cap reached).  The spec makes the
check-and-increment a single indivisible operation, so an interleaved run
is a sequence of these atomic updates. -/
def handle_reply (s : RunState) (a : Nat) : RunState :=
  if a ∈ s.alivehosts then
    s
  else if a ∈ s.targethosts then
    if s.alive_hosts_count < s.max_scan_hosts then
      { s with alivehosts := a :: s.alivehosts,
               emitted := a :: s.emitted,
               alive_hosts_count := s.alive_hosts_count + 1 }
    else
      { s with alivehosts := a :: s.alivehosts,
               alivehosts_not_to_be_sent_to_openvas :=
                 a :: s.alivehosts_not_to_be_sent_to_openvas }
  else
    { s with alivehosts := a :: s.alivehosts }

/-- Modelled from the spec: a whole capture history is the sequence of
classified reply addresses, applied to the store in arrival order. -/
def run_replies (s : RunState) : List Nat → RunState
  | [] => s
  | r :: rs => run_replies (handle_reply s r) rs

/-- Modelled from the spec: the state at run start, before any reply is
captured, for a given target list and configured maximum. -/
def init_state (targets : List Nat) (maxH : Nat) : RunState :=
  { alivehosts := [],
    targethosts := targets,
    alivehosts_not_to_be_sent_to_openvas := [],
    emitted := [],
    alive_hosts_count := 0,
    max_scan_hosts := maxH }

/-- Modelled from the spec: an observable step of the sender scheduler,
either the transmission of probes for one host or an inter-burst pause. -/
inductive SendEvent where
  | probe (a : Nat)
  | pause
  deriving DecidableEq

/-- Modelled from the spec: the sender scheduler of section 4.3, which is
not part of this excerpt.  It walks the target list, emits the probes for
each host, counts the hosts processed so far and, when rate limiting is
enabled (burst greater than 0), inserts a pause after every burst-many
hosts. -/
def scheduleFrom (burst : Int) : List Nat → Nat → List SendEvent
  | [], _ => []
  | a :: rest, k =>
    SendEvent.probe a ::
      (if 0 < burst ∧ (k + 1) % burst.toNat = 0 then
        SendEvent.pause :: scheduleFrom burst rest (k + 1)
      else
        scheduleFrom burst rest (k + 1))

/-- Maps a scheduler event to the probed address, when it is a probe. -/
def probe_addr (e : SendEvent) : Option Nat :=
  match e with
  | SendEvent.probe a => some a
  | SendEvent.pause => none

/-- Lists the addresses probed by a scheduler event sequence, in order. -/
def probesOf (es : List SendEvent) : List Nat :=
  es.filterMap probe_addr

/-- Counts the inter-burst pauses of a scheduler event sequence. -/
def pausesOf (es : List SendEvent) : Nat :=
  es.countP (fun e => decide (e = SendEvent.pause))

/-- Modelled from the spec: the final state of a run in which the scheduler
is configured with the given burst value, every probed host whose address
satisfies the reply pattern r answers within the grace window, and the
capture listener applies the replies in probe order. -/
def final_state (burst : Int) (maxH : Nat) (targets : List Nat)
    (r : Nat → Bool) : RunState :=
  run_replies (init_state targets maxH)
    ((probesOf (scheduleFrom burst targets 0)).filter r)

/-! ## Helper lemmas -/

theorem handle_reply_fields (s : RunState) (a : Nat) :
    (handle_reply s a).targethosts = s.targethosts ∧
    (handle_reply s a).max_scan_hosts = s.max_scan_hosts := by
  unfold handle_reply
  split
  · exact ⟨rfl, rfl⟩
  · split
    · split
      · exact ⟨rfl, rfl⟩
      · exact ⟨rfl, rfl⟩
    · exact ⟨rfl, rfl⟩

theorem handle_reply_count_le (s : RunState) (a : Nat)
    (h : s.alive_hosts_count ≤ s.max_scan_hosts) :
    (handle_reply s a).alive_hosts_count ≤ s.max_scan_hosts := by
  unfold handle_reply
  split
  · exact h
  · split
    · split
      · next h3 => exact h3
      · exact h
    · exact h

theorem run_replies_targethosts : ∀ (rs : List Nat) (s : RunState),
    (run_replies s rs).targethosts = s.targethosts := by
  intro rs
  induction rs with
  | nil => intro s; rfl
  | cons r rs ih =>
    intro s
    simp only [run_replies]
    rw [ih, (handle_reply_fields s r).1]

theorem run_replies_max : ∀ (rs : List Nat) (s : RunState),
    (run_replies s rs).max_scan_hosts = s.max_scan_hosts := by
  intro rs
  induction rs with
  | nil => intro s; rfl
  | cons r rs ih =>
    intro s
    simp only [run_replies]
    rw [ih, (handle_reply_fields s r).2]

theorem run_replies_count_le : ∀ (rs : List Nat) (s : RunState),
    s.alive_hosts_count ≤ s.max_scan_hosts →
    (run_replies s rs).alive_hosts_count ≤ (run_replies s rs).max_scan_hosts := by
  intro rs
  induction rs with
  | nil => intro s h; exact h
  | cons r rs ih =>
    intro s h
    simp only [run_replies]
    refine ih (handle_reply s r) ?_
    rw [(handle_reply_fields s r).2]
    exact handle_reply_count_le s r h

theorem handle_reply_capped_sub (s : RunState) (a x : Nat)
    (h : ∀ y ∈ s.alivehosts_not_to_be_sent_to_openvas,
      y ∈ s.alivehosts ∧ y ∈ s.targethosts)
    (hx : x ∈ (handle_reply s a).alivehosts_not_to_be_sent_to_openvas) :
    x ∈ (handle_reply s a).alivehosts ∧ x ∈ (handle_reply s a).targethosts := by
  by_cases h1 : a ∈ s.alivehosts
  · simp only [handle_reply, if_pos h1] at hx ⊢
    exact h x hx
  · by_cases h2 : a ∈ s.targethosts
    · by_cases h3 : s.alive_hosts_count < s.max_scan_hosts
      · simp only [handle_reply, if_neg h1, if_pos h2, if_pos h3] at hx ⊢
        rcases h x hx with ⟨hxa, hxt⟩
        exact ⟨List.mem_cons_of_mem a hxa, hxt⟩
      · simp only [handle_reply, if_neg h1, if_pos h2, if_neg h3] at hx ⊢
        rcases List.mem_cons.mp hx with hxa | hxm
        · subst hxa
          exact ⟨List.mem_cons_self x _, h2⟩
        · rcases h x hxm with ⟨hxa, hxt⟩
          exact ⟨List.mem_cons_of_mem a hxa, hxt⟩
    · simp only [handle_reply, if_neg h1, if_neg h2] at hx ⊢
      rcases h x hx with ⟨hxa, hxt⟩
      exact ⟨List.mem_cons_of_mem a hxa, hxt⟩

theorem run_replies_capped_sub : ∀ (rs : List Nat) (s : RunState),
    (∀ y ∈ s.alivehosts_not_to_be_sent_to_openvas,
      y ∈ s.alivehosts ∧ y ∈ s.targethosts) →
    ∀ x ∈ (run_replies s rs).alivehosts_not_to_be_sent_to_openvas,
      x ∈ (run_replies s rs).alivehosts ∧ x ∈ (run_replies s rs).targethosts := by
  intro rs
  induction rs with
  | nil => intro s h; exact h
  | cons r rs ih =>
    intro s h
    exact ih (handle_reply s r) (fun y hy => handle_reply_capped_sub s r y h hy)

theorem mem_alivehosts_handle_reply (s : RunState) (a : Nat) :
    a ∈ (handle_reply s a).alivehosts := by
  by_cases h1 : a ∈ s.alivehosts
  · simpa only [handle_reply, if_pos h1] using h1
  · by_cases h2 : a ∈ s.targethosts
    · by_cases h3 : s.alive_hosts_count < s.max_scan_hosts
      · simp only [handle_reply, if_neg h1, if_pos h2, if_pos h3]
        exact List.mem_cons_self a _
      · simp only [handle_reply, if_neg h1, if_pos h2, if_neg h3]
        exact List.mem_cons_self a _
    · simp only [handle_reply, if_neg h1, if_neg h2]
      exact List.mem_cons_self a _

theorem handle_reply_mem_noop (s : RunState) (a : Nat) (h : a ∈ s.alivehosts) :
    handle_reply s a = s := by
  simp only [handle_reply, if_pos h]

theorem handle_reply_emitted_inv (s : RunState) (a : Nat)
    (h1 : s.emitted.Nodup) (h2 : ∀ y ∈ s.emitted, y ∈ s.alivehosts) :
    (handle_reply s a).emitted.Nodup ∧
      ∀ y ∈ (handle_reply s a).emitted, y ∈ (handle_reply s a).alivehosts := by
  by_cases ha : a ∈ s.alivehosts
  · simp only [handle_reply, if_pos ha]
    exact ⟨h1, h2⟩
  · by_cases ht : a ∈ s.targethosts
    · by_cases hc : s.alive_hosts_count < s.max_scan_hosts
      · have hae : a ∉ s.emitted := fun hmem => ha (h2 a hmem)
        simp only [handle_reply, if_neg ha, if_pos ht, if_pos hc]
        constructor
        · exact List.Nodup.cons hae h1
        · intro y hy
          rcases List.mem_cons.mp hy with hya | hym
          · subst hya
            exact List.mem_cons_self y _
          · exact List.mem_cons_of_mem a (h2 y hym)
      · simp only [handle_reply, if_neg ha, if_pos ht, if_neg hc]
        exact ⟨h1, fun y hy => List.mem_cons_of_mem a (h2 y hy)⟩
    · simp only [handle_reply, if_neg ha, if_neg ht]
      exact ⟨h1, fun y hy => List.mem_cons_of_mem a (h2 y hy)⟩

theorem run_replies_emitted_nodup : ∀ (rs : List Nat) (s : RunState),
    s.emitted.Nodup → (∀ y ∈ s.emitted, y ∈ s.alivehosts) →
    (run_replies s rs).emitted.Nodup := by
  intro rs
  induction rs with
  | nil => intro s h1 _; exact h1
  | cons r rs ih =>
    intro s h1 h2
    have h := handle_reply_emitted_inv s r h1 h2
    exact ih (handle_reply s r) h.1 h.2

theorem pausesOf_nonpos : ∀ (ts : List Nat) (b : Int), b ≤ 0 → ∀ (k : Nat),
    pausesOf (scheduleFrom b ts k) = 0 := by
  intro ts
  induction ts with
  | nil => intro b hb k; rfl
  | cons a rest ih =>
    intro b hb k
    have hnot : ¬ (0 < b ∧ (k + 1) % b.toNat = 0) :=
      fun hcon => absurd hb (not_le.mpr hcon.1)
    have h2 := ih b hb (k + 1)
    simp only [pausesOf] at h2 ⊢
    simp [scheduleFrom, hnot, List.countP_cons, h2]

theorem probesOf_scheduleFrom : ∀ (ts : List Nat) (b : Int) (k : Nat),
    probesOf (scheduleFrom b ts k) = ts := by
  intro ts
  induction ts with
  | nil => intro b k; rfl
  | cons a rest ih =>
    intro b k
    have h2 := ih b (k + 1)
    simp only [probesOf] at h2
    by_cases h : 0 < b ∧ (k + 1) % b.toNat = 0
    · simp [scheduleFrom, h, probesOf, probe_addr, List.filterMap_cons, h2]
    · simp [scheduleFrom, h, probesOf, probe_addr, List.filterMap_cons, h2]

theorem arg_get_value_append {α : Type} :
    ∀ (ps : List (String × α)) (k : String) (v : α) (e : String × α),
    arg_get_value ps k = some v → arg_get_value (ps ++ [e]) k = some v := by
  intro ps
  induction ps with
  | nil =>
    intro k v e h
    simp [arg_get_value] at h
  | cons p rest ih =>
    intro k v e h
    obtain ⟨k1, v1⟩ := p
    by_cases hk : k1 = k
    · simp only [List.cons_append, arg_get_value, if_pos hk] at h ⊢
      exact h
    · simp only [List.cons_append, arg_get_value, if_neg hk] at h ⊢
      exact ih k v e h

theorem add_plugin_preference_preserves (ps : List (String × String))
    (p_name name ty defaul k : String) (v : String)
    (h : arg_get_value ps k = some v) :
    arg_get_value (add_plugin_preference ps p_name name ty defaul) k = some v := by
  unfold add_plugin_preference
  cases harg : arg_get_value ps (p_name ++ "[" ++ ty ++ "]:" ++ rstrip_spaces name) with
  | some w => simpa [harg] using h
  | none =>
    simp only [harg, arg_add_value]
    exact arg_get_value_append ps k v _ h

theorem foldl_add_preserves (nm : String) :
    ∀ (nps : List nvtpref_t) (ps : List (String × String)) (k v : String),
    arg_get_value ps k = some v →
    arg_get_value
      (nps.foldl (fun acc np => add_plugin_preference acc nm np.name np.ty np.defaul) ps)
      k = some v := by
  intro nps
  induction nps with
  | nil => intro ps k v h; exact h
  | cons np rest ih =>
    intro ps k v h
    simp only [List.foldl_cons]
    exact ih _ k v (add_plugin_preference_preserves ps nm np.name np.ty np.defaul k v h)

/-! ## Claim theorems -/

/-- C1: for every run configuration with maximum M and every sequence of
captured replies, the emitted-alive count returned by get_alive_hosts_count
never exceeds M; and in a state whose count has reached the maximum, a
newly confirmed-alive target address leaves the emitted list and the
counter unchanged and lands in the alive-but-capped set instead. -/
theorem scan_cap_never_exceeded (maxH : Nat) (targets replies : List Nat)
    (s : RunState) (hs : s = run_replies (init_state targets maxH) replies) :
    get_alive_hosts_count s ≤ maxH ∧
    ∀ a : Nat, get_alive_hosts_count s = get_max_scan_hosts s →
      a ∉ s.alivehosts → a ∈ s.targethosts →
      (handle_reply s a).emitted = s.emitted ∧
      a ∈ (handle_reply s a).alivehosts_not_to_be_sent_to_openvas ∧
      get_alive_hosts_count (handle_reply s a) = get_alive_hosts_count s := by
  constructor
  · subst hs
    have h := run_replies_count_le replies (init_state targets maxH) (Nat.zero_le maxH)
    rw [run_replies_max] at h
    exact h
  · intro a hcap hna hta
    have hnotlt : ¬ s.alive_hosts_count < s.max_scan_hosts := by
      simp only [get_alive_hosts_count, get_max_scan_hosts] at hcap
      omega
    refine ⟨?_, ?_, ?_⟩ <;>
      simp [handle_reply, hna, hta, hnotlt, get_alive_hosts_count]

/-- Witness for C1: with maximum 1, targets 1 and 2 and a reply from 1, the
cap is reached and a later reply from target 2 is capped, not emitted. -/
theorem scan_cap_never_exceeded_witness :
    get_alive_hosts_count (run_replies (init_state [1, 2] 1) [1]) ≤ 1 ∧
    (handle_reply (run_replies (init_state [1, 2] 1) [1]) 2).emitted
      = (run_replies (init_state [1, 2] 1) [1]).emitted ∧
    2 ∈ (handle_reply (run_replies (init_state [1, 2] 1) [1])
      2).alivehosts_not_to_be_sent_to_openvas :=
  ⟨(scan_cap_never_exceeded 1 [1, 2] [1] _ rfl).1,
   ((scan_cap_never_exceeded 1 [1, 2] [1] _ rfl).2 2 (by decide) (by decide)
      (by decide)).1,
   ((scan_cap_never_exceeded 1 [1, 2] [1] _ rfl).2 2 (by decide) (by decide)
      (by decide)).2.1⟩

/-- C2: at every point of a run, an address of the alive-but-capped set is
also in the alive-observed set and in the target set. -/
theorem capped_subset_alive_target (maxH : Nat) (targets replies : List Nat)
    (x : Nat)
    (hx : x ∈ (run_replies (init_state targets maxH)
      replies).alivehosts_not_to_be_sent_to_openvas) :
    x ∈ (run_replies (init_state targets maxH) replies).alivehosts ∧
    x ∈ (run_replies (init_state targets maxH) replies).targethosts :=
  run_replies_capped_sub replies (init_state targets maxH)
    (fun y hy => absurd hy (List.not_mem_nil y)) x hx

/-- Witness for C2: with maximum 0 every alive target is capped at once,
and the capped address 7 is both alive-observed and a target. -/
theorem capped_subset_alive_target_witness :
    7 ∈ (run_replies (init_state [7] 0)
      [7]).alivehosts_not_to_be_sent_to_openvas ∧
    7 ∈ (run_replies (init_state [7] 0) [7]).alivehosts ∧
    7 ∈ (run_replies (init_state [7] 0) [7]).targethosts :=
  ⟨by decide,
   (capped_subset_alive_target 0 [7] [7] 7 (by decide)).1,
   (capped_subset_alive_target 0 [7] [7] 7 (by decide)).2⟩

/-- C3: the state-store update rule is idempotent per address, so a second
or further reply from the same address is a no-op on the whole state
(emitted-alive counter included), and in every run each address occurs at
most once in the emitted list. -/
theorem duplicate_reply_idempotent (s : RunState) (a : Nat)
    (maxH : Nat) (targets replies : List Nat) :
    handle_reply (handle_reply s a) a = handle_reply s a ∧
    List.count a (run_replies (init_state targets maxH) replies).emitted ≤ 1 := by
  constructor
  · exact handle_reply_mem_noop (handle_reply s a) a (mem_alivehosts_handle_reply s a)
  · have hn := run_replies_emitted_nodup replies (init_state targets maxH)
      List.nodup_nil (fun y hy => absurd hy (List.not_mem_nil y))
    exact List.nodup_iff_count_le_one.mp hn a

/-- C4: for a script file with a stored cache entry, store_load_plugin
returns not-found (none) whenever the source file or its signature file is
newer than the cache entry or the source file's timestamp is in the
future; in particular a source file touched to a time newer than its cache
entry makes the next load a miss. -/
theorem stale_cache_load_miss (cm : Nat) (n : nvti_t)
    (src_mtime sig_mtime now : Nat) (prefs : List (String × String))
    (h : cm < src_mtime ∨ cm < sig_mtime ∨ now < src_mtime) :
    store_load_plugin (some (cm, n)) src_mtime sig_mtime now prefs = none := by
  simp [store_load_plugin, nvticache_get, h]

/-- Witness for C4: a cache entry written at time 1 whose source file was
then modified at time 2 misses on the next load. -/
theorem stale_cache_load_miss_witness :
    ((1 : Nat) < 2 ∨ (1 : Nat) < 0 ∨ (10 : Nat) < 2) ∧
    store_load_plugin (some (1, nvti_new)) 2 0 10 [] = none :=
  ⟨Or.inl (by decide),
   stale_cache_load_miss 1 nvti_new 2 0 10 [] (Or.inl (by decide))⟩

/-- C5: store_init returns -3 for a NULL directory and -2 for a directory
that does not exist, in both cases leaving the (initially unset) global
cache handle unset; for an existing directory on which cache creation
succeeds it returns 0 with the handle set. -/
theorem store_init_definite (dirExists : String → Bool)
    (newCache : String → Option String → Option nvticache_t)
    (src : Option String) (d : String) (c : nvticache_t)
    (cache0 : Option nvticache_t) :
    store_init dirExists newCache none none src = (-3, none) ∧
    (dirExists d = false →
      store_init dirExists newCache none (some d) src = (-2, none)) ∧
    (dirExists d = true → newCache d src = some c →
      store_init dirExists newCache cache0 (some d) src = (0, some c)) := by
  refine ⟨rfl, ?_, ?_⟩
  · intro h
    simp [store_init, h]
  · intro h1 h2
    simp [store_init, h1, h2]

/-- Witness for C5 with a filesystem in which only "ok" exists and a cache
constructor that always succeeds. -/
theorem store_init_definite_witness :
    store_init (fun s => s == "ok")
      (fun d _ => some { cache_path := d, src_path := "" })
      none none none = (-3, none) ∧
    store_init (fun s => s == "ok")
      (fun d _ => some { cache_path := d, src_path := "" })
      none (some "bad") none = (-2, none) ∧
    store_init (fun s => s == "ok")
      (fun d _ => some { cache_path := d, src_path := "" })
      none (some "ok") none = (0, some { cache_path := "ok", src_path := "" }) :=
  ⟨(store_init_definite (fun s => s == "ok")
      (fun d _ => some { cache_path := d, src_path := "" })
      none "bad" { cache_path := "ok", src_path := "" } none).1,
   (store_init_definite (fun s => s == "ok")
      (fun d _ => some { cache_path := d, src_path := "" })
      none "bad" { cache_path := "bad", src_path := "" } none).2.1 (by decide),
   (store_init_definite (fun s => s == "ok")
      (fun d _ => some { cache_path := d, src_path := "" })
      none "ok" { cache_path := "ok", src_path := "" } none).2.2 (by decide) rfl⟩

/-- C6: the recognized configuration defaults of alivedetection.h are
BURST = 100, BURST_TIMEOUT = 100000 microseconds (100 ms inter-burst
delay), WAIT_FOR_REPLIES_TIMEOUT = 5 seconds and FILTER_PORT = 9910, and a
burst value of at most 0 disables rate limiting: the scheduler then emits
no inter-burst pause at all. -/
theorem config_defaults :
    BURST = 100 ∧ BURST_TIMEOUT = 100000 ∧ burst_timeout_msec = 100 ∧
    WAIT_FOR_REPLIES_TIMEOUT = 5 ∧ FILTER_PORT = 9910 ∧
    (∀ b : Int, b ≤ 0 → ∀ (ts : List Nat) (k : Nat),
      pausesOf (scheduleFrom b ts k) = 0) :=
  ⟨rfl, rfl, rfl, rfl, rfl, fun b hb ts k => pausesOf_nonpos ts b hb k⟩

/-- Witness for C6: with the rate limit disabled by burst -1 the schedule
of three targets contains no pause. -/
theorem config_defaults_witness :
    ((-1 : Int) ≤ 0) ∧ pausesOf (scheduleFrom (-1) [1, 2, 3] 0) = 0 :=
  ⟨by decide, config_defaults.2.2.2.2.2 (-1) (by decide) [1, 2, 3] 0⟩

/-- C7: for every target set and reply pattern, a run with rate limiting
disabled (burst at most 0) and a run with rate limiting enabled (positive
burst) reach the same final state — in particular the same alive set; the
probe sequences coincide and only the pacing (the pauses) differs, the
disabled configuration pausing never. -/
theorem rate_limit_preserves_alive_set (b1 b2 : Int) (h1 : b1 ≤ 0)
    (_h2 : 0 < b2) (maxH : Nat) (targets : List Nat) (r : Nat → Bool) :
    final_state b1 maxH targets r = final_state b2 maxH targets r ∧
    probesOf (scheduleFrom b1 targets 0) = probesOf (scheduleFrom b2 targets 0) ∧
    pausesOf (scheduleFrom b1 targets 0) = 0 := by
  refine ⟨?_, ?_, pausesOf_nonpos targets b1 h1 0⟩
  · unfold final_state
    rw [probesOf_scheduleFrom, probesOf_scheduleFrom]
  · rw [probesOf_scheduleFrom, probesOf_scheduleFrom]

/-- Witness for C7: burst 0 (disabled) and burst 2 agree on the final state
for targets 1, 2, 3 of which the odd addresses reply. -/
theorem rate_limit_preserves_alive_set_witness :
    ((0 : Int) ≤ 0) ∧ ((0 : Int) < 2) ∧
    final_state 0 1 [1, 2, 3] (fun a => a % 2 == 1)
      = final_state 2 1 [1, 2, 3] (fun a => a % 2 == 1) :=
  ⟨by decide, by decide,
   (rate_limit_preserves_alive_set 0 2 (by decide) (by decide) 1 [1, 2, 3]
      (fun a => a % 2 == 1)).1⟩

/-- C8: a successful store_load_plugin never overwrites a caller-supplied
preference: every key present in prefs before the call still maps to the
same value afterwards; and add_plugin_preference adds its entry, under the
composed key of plugin name, type and space-stripped preference name, only
when that key is absent. -/
theorem existing_prefs_preserved (entry : Option (Nat × nvti_t))
    (src_mtime sig_mtime now : Nat) (prefs ps2 : List (String × String))
    (n : nvti_t) (k v : String)
    (hload : store_load_plugin entry src_mtime sig_mtime now prefs = some (n, ps2))
    (hk : arg_get_value prefs k = some v) :
    arg_get_value ps2 k = some v ∧
    ∀ (ps : List (String × String)) (p_name name ty defaul : String),
      arg_get_value ps (p_name ++ "[" ++ ty ++ "]:" ++ rstrip_spaces name) = none →
      add_plugin_preference ps p_name name ty defaul
        = ps ++ [(p_name ++ "[" ++ ty ++ "]:" ++ rstrip_spaces name, defaul)] := by
  constructor
  · unfold store_load_plugin at hload
    cases hget : nvticache_get entry src_mtime sig_mtime now with
    | none => rw [hget] at hload; exact absurd hload (by simp)
    | some m =>
      rw [hget] at hload
      have hps : ps2 = m.prefs.foldl
          (fun ps np => add_plugin_preference ps m.name np.name np.ty np.defaul)
          prefs := by
        have := hload
        simp only [Option.some.injEq, Prod.mk.injEq] at this
        exact this.2.symm
      rw [hps]
      exact foldl_add_preserves m.name m.prefs prefs k v hk
  · intro ps p_name name ty defaul h
    unfold add_plugin_preference
    simp only [h, arg_add_value]

/-- Witness for C8: loading a plugin with one preference into a prefs list
that already holds the key "k" leaves the value of "k" unchanged. -/
theorem existing_prefs_preserved_witness :
    store_load_plugin
        (some (5, { name := "p",
                    prefs := [{ name := "a ", ty := "entry", defaul := "x" }] }))
        1 1 10 [("k", "v")]
      = some ({ name := "p",
                prefs := [{ name := "a ", ty := "entry", defaul := "x" }] },
              [("k", "v"), ("p[entry]:a", "x")]) ∧
    arg_get_value [("k", "v"), ("p[entry]:a", "x")] "k" = some "v" :=
  ⟨by decide,
   (existing_prefs_preserved
      (some (5, { name := "p",
                  prefs := [{ name := "a ", ty := "entry", defaul := "x" }] }))
      1 1 10 [("k", "v")] [("k", "v"), ("p[entry]:a", "x")]
      { name := "p", prefs := [{ name := "a ", ty := "entry", defaul := "x" }] }
      "k" "v" (by decide) (by decide)).1⟩

/-- C9: store_init never validates the plugin source directory: its NULL
check and existence check look at dir alone, so its result on the error
paths is the same for any two src arguments, and it can return 0 with the
handle set even for a NULL src when cache creation succeeds. -/
theorem store_init_ignores_src (dirExists : String → Bool)
    (newCache : String → Option String → Option nvticache_t)
    (cache0 : Option nvticache_t) (d : String) (c : nvticache_t)
    (src1 src2 : Option String) :
    store_init dirExists newCache cache0 none src1
      = store_init dirExists newCache cache0 none src2 ∧
    (dirExists d = false →
      store_init dirExists newCache cache0 (some d) src1
        = store_init dirExists newCache cache0 (some d) src2) ∧
    (dirExists d = true → newCache d none = some c →
      store_init dirExists newCache cache0 (some d) none = (0, some c)) := by
  refine ⟨rfl, ?_, ?_⟩
  · intro h
    simp [store_init, h]
  · intro h1 h2
    simp [store_init, h1, h2]

/-- Witness for C9: at a nonexistent dir the result is -2 no matter which
src is passed, and an existing dir succeeds even with a NULL src. -/
theorem store_init_ignores_src_witness :
    store_init (fun s => s == "ok")
      (fun d _ => some { cache_path := d, src_path := "" })
      none (some "bad") (some "no-such-src")
      = store_init (fun s => s == "ok")
        (fun d _ => some { cache_path := d, src_path := "" })
        none (some "bad") none ∧
    store_init (fun s => s == "ok")
      (fun d _ => some { cache_path := d, src_path := "" })
      none (some "ok") none = (0, some { cache_path := "ok", src_path := "" }) :=
  ⟨(store_init_ignores_src (fun s => s == "ok")
      (fun d _ => some { cache_path := d, src_path := "" })
      none "bad" { cache_path := "bad", src_path := "" }
      (some "no-such-src") none).2.1 (by decide),
   (store_init_ignores_src (fun s => s == "ok")
      (fun d _ => some { cache_path := d, src_path := "" })
      none "ok" { cache_path := "ok", src_path := "" }
      (some "no-such-src") none).2.2 (by decide) rfl⟩

/-- C10: store_plugin is total and never reports failure: it always writes
to the path obtained by joining the cache directory with the file name and
appending ".nvti", writing the plugin arglist's NVTI record when there is
one and a freshly created empty record otherwise. -/
theorem store_plugin_total_write (cache : nvticache_t)
    (plugin : List (String × nvti_t)) (file : String) :
    (store_plugin cache plugin file).1
      = cache.cache_path ++ "/" ++ file ++ ".nvti" ∧
    (arg_get_value plugin "NVTI" = none →
      (store_plugin cache plugin file).2 = nvti_new) ∧
    (∀ n, arg_get_value plugin "NVTI" = some n →
      (store_plugin cache plugin file).2 = n) := by
  refine ⟨rfl, ?_, ?_⟩
  · intro h
    simp [store_plugin, h]
  · intro n h
    simp [store_plugin, h]

/-- Witness for C10: an arglist without an NVTI entry still produces a
definite write of the empty record to the composed cache path. -/
theorem store_plugin_total_write_witness :
    (store_plugin { cache_path := "c", src_path := "s" } [] "x.nasl").1
      = "c" ++ "/" ++ "x.nasl" ++ ".nvti" ∧
    (store_plugin { cache_path := "c", src_path := "s" } [] "x.nasl").2
      = nvti_new :=
  ⟨(store_plugin_total_write { cache_path := "c", src_path := "s" } [] "x.nasl").1,
   (store_plugin_total_write { cache_path := "c", src_path := "s" } []
      "x.nasl").2.1 rfl⟩
